import Mathlib

/-!
Verification of `bacterial_growth_converter.py`.

The script reads a spreadsheet as a 2-D grid of cells (numeric, text, or
empty), extracts well names from header row 8 (columns from 2), a time
column (column 1, rows from 9), per-well OD series, reshapes to long
format with rounded unit conversions, sorts stably by (Well, Time_s) and
writes a CSV.  We embed the grid walk over ℚ and prove the spec's claims
about it.
-/

namespace BacterialGrowth

/-- A spreadsheet cell: `empty` models a missing value (`pd.notna` false);
`val s f` models a present cell whose `str()` form is `s` and whose
`float()` parse is `f` (`none` when `float()` raises).  For numeric cells
only the parse is ever consulted, so their text form is irrelevant. -/
inductive Cell where
  | empty : Cell
  | val (s : String) (f : Option ℚ) : Cell
deriving DecidableEq

/-- The `pd.notna` test on a cell. -/
def Cell.notna : Cell → Bool
  | Cell.empty => false
  | Cell.val _ _ => true

/-- The result of `float(cell)`: `none` when the cell is missing or the
parse raises. -/
def Cell.toFloat : Cell → Option ℚ
  | Cell.empty => none
  | Cell.val _ f => f

/-- The result of `str(cell)` on a present cell. -/
def Cell.toText : Cell → String
  | Cell.empty => ""
  | Cell.val s _ => s

/-- A numeric cell holding the value `q`. -/
def numc (q : ℚ) : Cell := Cell.val "" (some q)

/-- The 2-D grid returned by `pd.read_excel(..., header=None)`:
`df.shape = (nrows, ncols)`, and `cell r c` is `df.iloc[r, c]`. -/
structure Grid where
  nrows : ℕ
  ncols : ℕ
  cell : ℕ → ℕ → Cell

/-- Build a grid from a row-major list of rows; positions outside the
given lists are empty. -/
def Grid.ofRows (rows : List (List Cell)) (nc : ℕ) : Grid :=
  { nrows := rows.length
    ncols := nc
    cell := fun r c => (rows.getD r []).getD c Cell.empty }

/-- `header_row = 8`: the row holding the well names. -/
def header_row : ℕ := 8

/-- `data_start_row = 9`: the first row of time/OD data. -/
def data_start_row : ℕ := 9

/-- `time_col = 1`: the column holding elapsed time in minutes. -/
def time_col : ℕ := 1

/-- `data_col_start = 2`: the first column holding a well's OD series. -/
def data_col_start : ℕ := 2

/-- Python's `str.strip()`: drop leading and trailing whitespace. -/
def stripStr (s : String) : String :=
  String.mk (((s.data.dropWhile Char.isWhitespace).reverse.dropWhile Char.isWhitespace).reverse)

/-- The well-name loop body: walk the given columns along `header_row`,
appending `str(cell).strip()` while cells are present, stopping at the
first missing cell. -/
def wellNamesAux (g : Grid) : List ℕ → List String
  | [] => []
  | c :: cs =>
    let w := g.cell header_row c
    if w.notna then stripStr w.toText :: wellNamesAux g cs else []

/-- `well_names`: scan columns `data_col_start, …, ncols - 1`. -/
def well_names (g : Grid) : List String :=
  wellNamesAux g (List.range' data_col_start (g.ncols - data_col_start))

/-- The time loop body: walk the given rows along `time_col`, appending
`float(cell)` while that succeeds, stopping at the first missing or
unparseable cell. -/
def timesAux (g : Grid) : List ℕ → List ℚ
  | [] => []
  | r :: rs =>
    match (g.cell r time_col).toFloat with
    | some t => t :: timesAux g rs
    | none => []

/-- `time_minutes`: scan rows `data_start_row, …, nrows - 1`. -/
def time_minutes (g : Grid) : List ℚ :=
  timesAux g (List.range' data_start_row (g.nrows - data_start_row))

/-- The OD loop body for one well column: for each listed row, if the row
is inside the grid and the cell parses, append the value; otherwise skip
it (no break). -/
def odAux (g : Grid) (c : ℕ) : List ℕ → List ℚ
  | [] => []
  | r :: rs =>
    if r < g.nrows then
      match (g.cell r c).toFloat with
      | some v => v :: odAux g c rs
      | none => odAux g c rs
    else odAux g c rs

/-- `od_values` for the well in column `c`, scanning the `tcount` rows
`data_start_row, …, data_start_row + tcount - 1` (the enumeration of
`time_minutes`). -/
def od_values (g : Grid) (c : ℕ) (tcount : ℕ) : List ℚ :=
  odAux g c (List.range' data_start_row tcount)

/-- Round half to even to an integer, as Python's `round` does. -/
def roundHalfEven (q : ℚ) : ℤ :=
  if q - (⌊q⌋ : ℚ) < 1/2 then ⌊q⌋
  else if 1/2 < q - (⌊q⌋ : ℚ) then ⌊q⌋ + 1
  else if ⌊q⌋ % 2 = 0 then ⌊q⌋ else ⌊q⌋ + 1

/-- Python's `round(q, n)`: round half to even at `n` decimal places. -/
def round_py (q : ℚ) (n : ℕ) : ℚ :=
  ((roundHalfEven (q * 10 ^ n) : ℤ) : ℚ) / 10 ^ n

/-- One output row of the CSV. -/
structure OutputRow where
  well : String
  time_s : ℚ
  time_h : ℚ
  od : ℚ
deriving DecidableEq

/-- The row emitted for source time `t` (minutes) and OD value `v`:
`Time_s = round(t * 60, 1)`, `Time_h = round(t / 60, 3)`,
`OD = round(v, 4)`. -/
def mkRow (name : String) (t v : ℚ) : OutputRow :=
  { well := name
    time_s := round_py (t * 60) 1
    time_h := round_py (t / 60) 3
    od := round_py v 4 }

/-- The inner emission loop: `zip(time_minutes, od_values)`, one row per
pair. -/
def rowsForWell (name : String) (times ods : List ℚ) : List OutputRow :=
  (times.zip ods).map fun p => mkRow name p.1 p.2

/-- The rows contributed by one `(well_idx, well_name)` entry: its OD
series is read, and rows are emitted only when the series length equals
the time count (otherwise the well is silently dropped). -/
def wellContribution (g : Grid) (times : List ℚ) (p : ℕ × String) : List OutputRow :=
  if (od_values g (data_col_start + p.1) times.length).length = times.length then
    rowsForWell p.2 times (od_values g (data_col_start + p.1) times.length)
  else []

/-- The outer well loop, with the `col_idx >= df.shape[1]` break. -/
def buildRows (g : Grid) (times : List ℚ) : List (ℕ × String) → List OutputRow
  | [] => []
  | p :: ps =>
    if g.ncols ≤ data_col_start + p.1 then []
    else wellContribution g times p ++ buildRows g times ps

/-- `output_data`: the emitted rows, in emission order, before sorting. -/
def output_data (g : Grid) : List OutputRow :=
  buildRows g (time_minutes g) (well_names g).enum

/-- The sort key order used by `sort_values(['Well', 'Time_s'])`:
lexicographic on the well name, then numeric on `Time_s`. -/
def rowLe (a b : OutputRow) : Prop :=
  a.well < b.well ∨ (a.well = b.well ∧ a.time_s ≤ b.time_s)

instance : DecidableRel rowLe := fun a b =>
  inferInstanceAs (Decidable (a.well < b.well ∨ (a.well = b.well ∧ a.time_s ≤ b.time_s)))

instance : IsTrans OutputRow rowLe where
  trans := by
    intro a b c hab hbc
    rcases hab with h | ⟨e, ht⟩ <;> rcases hbc with h' | ⟨e', ht'⟩
    · exact Or.inl (lt_trans h h')
    · exact Or.inl (by rw [← e']; exact h)
    · exact Or.inl (by rw [e]; exact h')
    · exact Or.inr ⟨e.trans e', le_trans ht ht'⟩

instance : IsTotal OutputRow rowLe where
  total := by
    intro a b
    rcases lt_trichotomy a.well b.well with h | h | h
    · exact Or.inl (Or.inl h)
    · rcases le_total a.time_s b.time_s with ht | ht
      · exact Or.inl (Or.inr ⟨h, ht⟩)
      · exact Or.inr (Or.inr ⟨h.symm, ht⟩)
    · exact Or.inr (Or.inl h)

/-- The conversion pipeline on a successfully read grid: extract wells,
times and OD series, emit rows, fail when nothing was emitted (the
`ValueError`), otherwise stable-sort by (Well, Time_s). -/
def convertGrid (g : Grid) : Except String (List OutputRow) :=
  if output_data g = [] then
    Except.error "no valid OD data extracted"
  else
    Except.ok (List.insertionSort rowLe (output_data g))

/-- `convert_bacterial_growth_data`: the whole body runs under
`try/except`, so a failed spreadsheet read (`Except.error`) or an empty
result returns `False`; otherwise the CSV is written and `True` is
returned.  No exception propagates to the caller. -/
def convert_bacterial_growth_data : Except String Grid → Bool
  | Except.error _ => false
  | Except.ok g =>
    match convertGrid g with
    | Except.error _ => false
    | Except.ok _ => true

/-- The view of `pd.read_csv` output that `validate_csv_output` consults:
the column names and, per column name, whether its dtype is numeric. -/
structure CsvFrame where
  columns : List String
  numeric : String → Bool

/-- The required output columns. -/
def required_columns : List String := ["Well", "Time_s", "Time_h", "OD"]

/-- `validate_csv_output`: `False` when the file cannot be read, when a
required column is missing, or when `Time_s`, `Time_h` or `OD` is not
numeric-typed; `True` otherwise. -/
def validate_csv_output : Except String CsvFrame → Bool
  | Except.error _ => false
  | Except.ok df =>
    let missing := required_columns.filter fun c => decide (c ∉ df.columns)
    if missing.isEmpty then
      if !(df.numeric "Time_s") then false
      else if !(df.numeric "Time_h") then false
      else if !(df.numeric "OD") then false
      else true
    else false

/-- The worked example from the spec: wells "A1", "A2" in header row 8,
times 0/30/60 minutes, ODs 0.100/0.150/0.200 and 0.110/0.160/0.210. -/
def exampleGrid : Grid :=
  Grid.ofRows
    [ [], [], [], [], [], [], [], [],
      [Cell.empty, Cell.empty, Cell.val "A1" none, Cell.val "A2" none],
      [Cell.empty, numc 0, numc 0.1, numc 0.11],
      [Cell.empty, numc 30, numc 0.15, numc 0.16],
      [Cell.empty, numc 60, numc 0.2, numc 0.21] ]
    4

/-- A grid with one complete well "A1" and one incomplete well "B1"
(its OD cell in the second data row is blank, so only one of its two
values parses). -/
def exampleGrid2 : Grid :=
  Grid.ofRows
    [ [], [], [], [], [], [], [], [],
      [Cell.empty, Cell.empty, Cell.val "A1" none, Cell.val "B1" none],
      [Cell.empty, numc 0, numc 0.1, numc 0.2],
      [Cell.empty, numc 30, numc 0.15, Cell.empty] ]
    4

/-- A grid with no data at all. -/
def emptyGrid : Grid := Grid.ofRows [] 0

/-- The cells of the time column over the data rows, in row order. -/
def timeColumnCells (g : Grid) : List Cell :=
  (List.range' data_start_row (g.nrows - data_start_row)).map fun r => g.cell r time_col

/-- Stated from the spec's wording for time extraction: the values of the
longest initial run of time-column cells in which every cell is non-empty
and parseable as a floating-point number (everything after the first gap
is excluded). -/
def specTimeList (g : Grid) : List ℚ :=
  ((timeColumnCells g).takeWhile fun c => (Cell.toFloat c).isSome).map
    fun c => (Cell.toFloat c).getD 0

/-! ### Rounding lemmas -/

lemma roundHalfEven_intCast (m : ℤ) : roundHalfEven (m : ℚ) = m := by
  unfold roundHalfEven
  rw [Int.floor_intCast]
  norm_num

/-- When `q` is already exact at `n` decimal places, rounding returns it
unchanged. -/
lemma round_py_eq_self (q : ℚ) (n : ℕ) (m : ℤ) (h : q * 10 ^ n = m) :
    round_py q n = q := by
  unfold round_py
  rw [h, roundHalfEven_intCast, ← h]
  exact mul_div_cancel_right₀ q (by positivity)

lemma abs_roundHalfEven_sub_le (q : ℚ) : |(roundHalfEven q : ℚ) - q| ≤ 1 / 2 := by
  have hfl : (⌊q⌋ : ℚ) ≤ q := Int.floor_le q
  have hfu : q < (⌊q⌋ : ℚ) + 1 := Int.lt_floor_add_one q
  unfold roundHalfEven
  split_ifs with h1 h2 h3 <;> rw [abs_le] <;> constructor <;> push_cast <;> linarith

/-- Rounding at `n` decimal places moves a value by at most half a unit
in the last place. -/
lemma abs_round_py_sub_le (q : ℚ) (n : ℕ) :
    |round_py q n - q| ≤ 1 / (2 * 10 ^ n) := by
  have hpow : (0 : ℚ) < 10 ^ n := by positivity
  have key : round_py q n - q =
      (((roundHalfEven (q * 10 ^ n) : ℤ) : ℚ) - q * 10 ^ n) / 10 ^ n := by
    rw [eq_div_iff (ne_of_gt hpow)]
    unfold round_py
    field_simp
    ring
  rw [key, abs_div, abs_of_pos hpow]
  calc |((roundHalfEven (q * 10 ^ n) : ℤ) : ℚ) - q * 10 ^ n| / 10 ^ n
      ≤ (1 / 2) / 10 ^ n := by
        gcongr
        exact abs_roundHalfEven_sub_le _
    _ = 1 / (2 * 10 ^ n) := by ring

/-- A row whose three values are already exact at the rounding precision
is emitted unchanged. -/
lemma mkRow_exact (name : String) (t v : ℚ) (m1 m2 m3 : ℤ)
    (h1 : t * 60 * 10 ^ 1 = m1) (h2 : t / 60 * 10 ^ 3 = m2) (h3 : v * 10 ^ 4 = m3) :
    mkRow name t v = ⟨name, t * 60, t / 60, v⟩ := by
  unfold mkRow
  rw [round_py_eq_self _ _ m1 h1, round_py_eq_self _ _ m2 h2, round_py_eq_self _ _ m3 h3]

/-! ### Evaluation of the worked example -/

lemma output_data_exampleGrid :
    output_data exampleGrid =
      [ ⟨"A1", 0, 0, 0.1⟩, ⟨"A1", 1800, 0.5, 0.15⟩, ⟨"A1", 3600, 1, 0.2⟩,
        ⟨"A2", 0, 0, 0.11⟩, ⟨"A2", 1800, 0.5, 0.16⟩, ⟨"A2", 3600, 1, 0.21⟩ ] := by
  have hmk : output_data exampleGrid =
      [ mkRow "A1" 0 0.1, mkRow "A1" 30 0.15, mkRow "A1" 60 0.2,
        mkRow "A2" 0 0.11, mkRow "A2" 30 0.16, mkRow "A2" 60 0.21 ] := rfl
  rw [hmk,
    mkRow_exact "A1" 0 0.1 0 0 1000 (by norm_num) (by norm_num) (by norm_num),
    mkRow_exact "A1" 30 0.15 18000 500 1500 (by norm_num) (by norm_num) (by norm_num),
    mkRow_exact "A1" 60 0.2 36000 1000 2000 (by norm_num) (by norm_num) (by norm_num),
    mkRow_exact "A2" 0 0.11 0 0 1100 (by norm_num) (by norm_num) (by norm_num),
    mkRow_exact "A2" 30 0.16 18000 500 1600 (by norm_num) (by norm_num) (by norm_num),
    mkRow_exact "A2" 60 0.21 36000 1000 2100 (by norm_num) (by norm_num) (by norm_num)]
  norm_num [OutputRow.mk.injEq]

lemma sorted_example :
    List.Sorted rowLe
      [ (⟨"A1", 0, 0, 0.1⟩ : OutputRow), ⟨"A1", 1800, 0.5, 0.15⟩, ⟨"A1", 3600, 1, 0.2⟩,
        ⟨"A2", 0, 0, 0.11⟩, ⟨"A2", 1800, 0.5, 0.16⟩, ⟨"A2", 3600, 1, 0.21⟩ ] := by
  have hAB : ("A1" : String) < "A2" := by rw [String.lt_iff_toList_lt]; decide
  have hl : (['A', '1'] : List Char) < ['A', '2'] := by decide
  norm_num [List.sorted_cons, rowLe, hAB, hl]

lemma convertGrid_exampleGrid :
    convertGrid exampleGrid =
      Except.ok
        [ ⟨"A1", 0, 0, 0.1⟩, ⟨"A1", 1800, 0.5, 0.15⟩, ⟨"A1", 3600, 1, 0.2⟩,
          ⟨"A2", 0, 0, 0.11⟩, ⟨"A2", 1800, 0.5, 0.16⟩, ⟨"A2", 3600, 1, 0.21⟩ ] := by
  rw [convertGrid, output_data_exampleGrid, if_neg (by simp)]
  rw [List.Sorted.insertionSort_eq sorted_example]

/-- C1: on the spec's worked example grid — wells "A1", "A2" named in
header row 8 from column 2, times [0, 30, 60] minutes in column 1 from
row 9, OD series [0.100, 0.150, 0.200] and [0.110, 0.160, 0.210] — the
conversion produces exactly the six rows (A1,0,0,0.1), (A1,1800,0.5,0.15),
(A1,3600,1,0.2), (A2,0,0,0.11), (A2,1800,0.5,0.16), (A2,3600,1,0.21), in
that order. -/
theorem spec_C1 :
    convertGrid exampleGrid =
      Except.ok
        [ ⟨"A1", 0, 0, 0.1⟩, ⟨"A1", 1800, 0.5, 0.15⟩, ⟨"A1", 3600, 1, 0.2⟩,
          ⟨"A2", 0, 0, 0.11⟩, ⟨"A2", 1800, 0.5, 0.16⟩, ⟨"A2", 3600, 1, 0.21⟩ ] :=
  convertGrid_exampleGrid

/-! ### Structural lemmas about the extraction loops -/

lemma wellNamesAux_length_le (g : Grid) : ∀ l : List ℕ, (wellNamesAux g l).length ≤ l.length
  | [] => le_refl _
  | c :: cs => by
    rw [wellNamesAux]
    split_ifs
    · simpa using wellNamesAux_length_le g cs
    · simp

lemma well_names_length_le (g : Grid) :
    (well_names g).length ≤ g.ncols - data_col_start := by
  simpa using wellNamesAux_length_le g (List.range' data_col_start (g.ncols - data_col_start))

/-- Every well index extracted from the header corresponds to a column
inside the grid, so the `col_idx >= df.shape[1]` break never fires. -/
lemma well_names_col_lt (g : Grid) {i : ℕ} (hi : i < (well_names g).length) :
    data_col_start + i < g.ncols := by
  have h := well_names_length_le g
  omega

lemma timesAux_length_le (g : Grid) : ∀ l : List ℕ, (timesAux g l).length ≤ l.length
  | [] => le_refl _
  | r :: rs => by
    rw [timesAux]
    cases (g.cell r time_col).toFloat
    · simp
    · simpa using timesAux_length_le g rs

/-- Every index into the extracted time list corresponds to a data row
inside the grid. -/
lemma time_row_lt (g : Grid) {j : ℕ} (hj : j < (time_minutes g).length) :
    data_start_row + j < g.nrows := by
  have h : (time_minutes g).length ≤ g.nrows - data_start_row := by
    simpa using timesAux_length_le g (List.range' data_start_row (g.nrows - data_start_row))
  omega

lemma fst_lt_of_mem_enumFrom :
    ∀ {l : List α} {n : ℕ} {p : ℕ × α}, p ∈ List.enumFrom n l → p.1 < n + l.length := by
  intro l
  induction l with
  | nil => intro n p h; simp at h
  | cons a as ih =>
    intro n p h
    rw [List.enumFrom] at h
    rcases List.mem_cons.mp h with h | h
    · subst h; simp
    · have := ih h
      simp only [List.length_cons]
      omega

lemma mem_enumFrom_get :
    ∀ (l : List α) (n j : ℕ) (h : j < l.length), (n + j, l.get ⟨j, h⟩) ∈ List.enumFrom n l := by
  intro l
  induction l with
  | nil => intro n j h; simp at h
  | cons a as ih =>
    intro n j h
    rw [List.enumFrom]
    match j with
    | 0 => simp
    | j + 1 =>
      have hj : j < as.length := by simpa using h
      have := ih (n + 1) j hj
      have harith : n + (j + 1) = n + 1 + j := by omega
      rw [harith]
      exact List.mem_cons_of_mem _ this

/-- When no extracted well column is out of range (which
`well_names_col_lt` guarantees for the real well list), the well loop is
the concatenation of the per-well contributions. -/
lemma buildRows_eq_flatten (g : Grid) (times : List ℚ) :
    ∀ l : List (ℕ × String), (∀ p ∈ l, data_col_start + p.1 < g.ncols) →
      buildRows g times l = (l.map (wellContribution g times)).flatten
  | [], _ => rfl
  | p :: ps, h => by
    rw [buildRows, if_neg (by have := h p (List.mem_cons_self p ps); omega)]
    rw [buildRows_eq_flatten g times ps fun q hq => h q (List.mem_cons_of_mem p hq)]
    simp

/-- The emitted rows are exactly the concatenation of the contributions
of the extracted wells, in header order. -/
lemma output_data_eq_flatten (g : Grid) :
    output_data g =
      ((well_names g).enum.map (wellContribution g (time_minutes g))).flatten := by
  refine buildRows_eq_flatten g (time_minutes g) (well_names g).enum fun p hp => ?_
  have h1 : p.1 < (well_names g).length := by
    simpa using fst_lt_of_mem_enumFrom hp
  exact well_names_col_lt g h1

lemma odAux_length_le (g : Grid) (c : ℕ) : ∀ l : List ℕ, (odAux g c l).length ≤ l.length
  | [] => le_refl _
  | r :: rs => by
    rw [odAux]
    split_ifs
    · cases (g.cell r c).toFloat
      · simpa using Nat.le_succ_of_le (odAux_length_le g c rs)
      · simpa using odAux_length_le g c rs
    · simpa using Nat.le_succ_of_le (odAux_length_le g c rs)

/-- The OD loop keeps every listed row exactly when every listed row is
inside the grid and parses. -/
lemma odAux_length_eq_iff (g : Grid) (c : ℕ) :
    ∀ l : List ℕ, (odAux g c l).length = l.length ↔
      ∀ r ∈ l, r < g.nrows ∧ ((g.cell r c).toFloat).isSome = true
  | [] => by simp [odAux]
  | r :: rs => by
    rw [odAux]
    split_ifs with hr
    · cases hf : (g.cell r c).toFloat with
      | none =>
        dsimp only
        have hle := odAux_length_le g c rs
        rw [List.length_cons]
        constructor
        · intro h
          exfalso
          omega
        · intro h
          have := (h r (List.mem_cons_self r rs)).2
          rw [hf] at this
          simp at this
      | some v =>
        dsimp only
        rw [List.length_cons, List.length_cons, Nat.succ_inj,
          odAux_length_eq_iff g c rs]
        constructor
        · intro h q hq
          rcases List.mem_cons.mp hq with h' | h'
          · subst h'; exact ⟨hr, by rw [hf]; rfl⟩
          · exact h q h'
        · intro h q hq
          exact h q (List.mem_cons_of_mem r hq)
    · have hle := odAux_length_le g c rs
      rw [List.length_cons]
      constructor
      · intro h
        exfalso
        omega
      · intro h
        exact absurd (h r (List.mem_cons_self r rs)).1 hr

/-- When every listed row is inside the grid and parses, the OD loop
returns the parsed cell values, in row order. -/
lemma odAux_eq_map (g : Grid) (c : ℕ) :
    ∀ l : List ℕ, (∀ r ∈ l, r < g.nrows ∧ ((g.cell r c).toFloat).isSome = true) →
      odAux g c l = l.map fun r => ((g.cell r c).toFloat).getD 0
  | [], _ => rfl
  | r :: rs, h => by
    obtain ⟨hr, hs⟩ := h r (List.mem_cons_self r rs)
    rw [odAux, if_pos hr]
    rcases hf : (g.cell r c).toFloat with _ | v
    · rw [hf] at hs; simp at hs
    · rw [List.map_cons, odAux_eq_map g c rs fun q hq => h q (List.mem_cons_of_mem r hq)]
      rw [hf]
      rfl

lemma mem_range'_one {s n r : ℕ} : r ∈ List.range' s n ↔ ∃ j, j < n ∧ r = s + j := by
  induction n generalizing s with
  | zero => simp [List.range']
  | succ n ih =>
    rw [List.range'_succ, List.mem_cons, ih]
    constructor
    · rintro (rfl | ⟨j, hj, rfl⟩)
      · exact ⟨0, by omega, by omega⟩
      · exact ⟨j + 1, by omega, by omega⟩
    · rintro ⟨j, hj, rfl⟩
      match j with
      | 0 => exact Or.inl (by omega)
      | j + 1 => exact Or.inr ⟨j, by omega, by omega⟩

/-- A well's OD series has full length exactly when all of its cells over
the time rows are inside the grid and parseable. -/
lemma od_values_complete_iff (g : Grid) (c tcount : ℕ) :
    (od_values g c tcount).length = tcount ↔
      ∀ j < tcount, data_start_row + j < g.nrows ∧
        ((g.cell (data_start_row + j) c).toFloat).isSome = true := by
  have base := odAux_length_eq_iff g c (List.range' data_start_row tcount)
  simp only [List.length_range'] at base
  rw [od_values, base]
  constructor
  · intro h j hj
    exact h (data_start_row + j) (mem_range'_one.mpr ⟨j, by omega, rfl⟩)
  · intro h r hr
    obtain ⟨j, hj, rfl⟩ := mem_range'_one.mp hr
    exact h j (by omega)

lemma length_rowsForWell (name : String) (times ods : List ℚ)
    (h : ods.length = times.length) :
    (rowsForWell name times ods).length = times.length := by
  rw [rowsForWell, List.length_map, List.length_zip, h, min_self]

lemma wellContribution_length (g : Grid) (times : List ℚ) (p : ℕ × String)
    (h : (od_values g (data_col_start + p.1) times.length).length = times.length) :
    (wellContribution g times p).length = times.length := by
  rw [wellContribution, if_pos h, length_rowsForWell _ _ _ h]

lemma sum_map_const {l : List α} {f : α → ℕ} {T : ℕ} (h : ∀ a ∈ l, f a = T) :
    (l.map f).sum = l.length * T := by
  induction l with
  | nil => simp
  | cons a as ih =>
    rw [List.map_cons, List.sum_cons, h a (List.mem_cons_self a as),
      ih fun b hb => h b (List.mem_cons_of_mem a hb), List.length_cons]
    ring

lemma convertGrid_eq_ok (g : Grid) (rows : List OutputRow) :
    convertGrid g = Except.ok rows ↔
      output_data g ≠ [] ∧ rows = List.insertionSort rowLe (output_data g) := by
  rw [convertGrid]
  split_ifs with h
  · simp [h]
  · rw [Except.ok.injEq]
    constructor
    · intro he
      exact ⟨h, he.symm⟩
    · rintro ⟨-, rfl⟩
      rfl

/-- C2: when the time column yields `T` timepoints and every one of the
`W` extracted wells has a parseable OD value in each of the `T` time
rows, the conversion emits exactly `W × T` rows, and the final (sorted)
collection likewise has `W × T` rows. -/
theorem spec_C2 (g : Grid)
    (hcomp : ∀ i < (well_names g).length, ∀ j < (time_minutes g).length,
      ((g.cell (data_start_row + j) (data_col_start + i)).toFloat).isSome = true) :
    (output_data g).length = (well_names g).length * (time_minutes g).length ∧
    ∀ rows, convertGrid g = Except.ok rows →
      rows.length = (well_names g).length * (time_minutes g).length := by
  have hall : ∀ p ∈ (well_names g).enum,
      (List.length ∘ wellContribution g (time_minutes g)) p = (time_minutes g).length := by
    intro p hp
    have hi : p.1 < (well_names g).length := by
      simpa using fst_lt_of_mem_enumFrom hp
    have hod : (od_values g (data_col_start + p.1) (time_minutes g).length).length =
        (time_minutes g).length := by
      rw [od_values_complete_iff]
      intro j hj
      exact ⟨time_row_lt g hj, hcomp p.1 hi j hj⟩
    simpa using wellContribution_length g (time_minutes g) p hod
  have hout : (output_data g).length =
      (well_names g).length * (time_minutes g).length := by
    rw [output_data_eq_flatten, List.length_flatten, List.map_map, sum_map_const hall,
      List.enum_length]
  refine ⟨hout, ?_⟩
  intro rows hr
  obtain ⟨-, rfl⟩ := (convertGrid_eq_ok g rows).mp hr
  rw [List.length_insertionSort, hout]

theorem spec_C2_witness :
    (output_data exampleGrid).length =
      (well_names exampleGrid).length * (time_minutes exampleGrid).length ∧
    ∀ rows, convertGrid exampleGrid = Except.ok rows →
      rows.length = (well_names exampleGrid).length * (time_minutes exampleGrid).length :=
  spec_C2 exampleGrid (by decide)

lemma buildRows_nil_times (g : Grid) :
    ∀ l : List (ℕ × String), buildRows g [] l = []
  | [] => rfl
  | p :: ps => by
    rw [buildRows]
    split_ifs
    · rfl
    · rw [buildRows_nil_times g ps, List.append_nil, wellContribution]
      simp [od_values, odAux, rowsForWell]

/-- C7: emitting zero rows makes the conversion fail (the `ValueError`
turned into a `False` return), never an empty success; in particular a
grid with no parseable timepoints or no well names emits zero rows. -/
theorem spec_C7 (g : Grid) :
    (output_data g = [] →
      convert_bacterial_growth_data (Except.ok g) = false ∧
      convertGrid g = Except.error "no valid OD data extracted") ∧
    ((time_minutes g = [] ∨ well_names g = []) → output_data g = []) := by
  constructor
  · intro h
    have hc : convertGrid g = Except.error "no valid OD data extracted" := by
      rw [convertGrid, if_pos h]
    refine ⟨?_, hc⟩
    simp [convert_bacterial_growth_data, hc]
  · rintro (h | h)
    · rw [output_data, h, buildRows_nil_times]
    · rw [output_data, h]
      rfl

theorem spec_C7_witness :
    (convert_bacterial_growth_data (Except.ok emptyGrid) = false ∧
      convertGrid emptyGrid = Except.error "no valid OD data extracted") ∧
    output_data emptyGrid = [] :=
  ⟨(spec_C7 emptyGrid).1 rfl, (spec_C7 emptyGrid).2 (Or.inl rfl)⟩

/-- C3: a well whose OD series has fewer parseable values than there are
timepoints contributes zero rows, and as long as some other well is
complete (and there is at least one timepoint) the conversion still
succeeds — the incomplete well raises no error. -/
theorem spec_C3 (g : Grid) (i : ℕ) (name : String)
    (hincomp : (od_values g (data_col_start + i) (time_minutes g).length).length ≠
      (time_minutes g).length)
    (j : ℕ) (hj : j < (well_names g).length)
    (hcomp : (od_values g (data_col_start + j) (time_minutes g).length).length =
      (time_minutes g).length)
    (hT : time_minutes g ≠ []) :
    wellContribution g (time_minutes g) (i, name) = [] ∧
    ∃ rows, convertGrid g = Except.ok rows := by
  constructor
  · rw [wellContribution, if_neg hincomp]
  · have hmem : (j, (well_names g).get ⟨j, hj⟩) ∈ (well_names g).enum := by
      have := mem_enumFrom_get (well_names g) 0 j hj
      simpa [List.enum] using this
    have hcontrib :
        wellContribution g (time_minutes g) (j, (well_names g).get ⟨j, hj⟩) ≠ [] := by
      rw [wellContribution, if_pos hcomp]
      intro hnil
      have hlen := congrArg List.length hnil
      rw [length_rowsForWell _ _ _ hcomp] at hlen
      simp only [List.length_nil] at hlen
      exact hT (List.length_eq_zero.mp hlen)
    have hne : output_data g ≠ [] := by
      rw [output_data_eq_flatten]
      intro hnil
      rw [List.flatten_eq_nil_iff] at hnil
      exact hcontrib (hnil _ (List.mem_map_of_mem _ hmem))
    exact ⟨_, by rw [convertGrid, if_neg hne]⟩

theorem spec_C3_witness :
    wellContribution exampleGrid2 (time_minutes exampleGrid2) (1, "B1") = [] ∧
    ∃ rows, convertGrid exampleGrid2 = Except.ok rows :=
  spec_C3 exampleGrid2 1 "B1" (by decide) 0 (by decide) (by decide) (by decide)

lemma timesAux_eq_takeWhile (g : Grid) :
    ∀ l : List ℕ,
      timesAux g l =
        ((l.map fun r => g.cell r time_col).takeWhile fun c => (Cell.toFloat c).isSome).map
          fun c => (Cell.toFloat c).getD 0
  | [] => rfl
  | r :: rs => by
    rw [timesAux, List.map_cons, List.takeWhile]
    cases hf : (g.cell r time_col).toFloat with
    | none => simp [hf]
    | some t => simp [hf, timesAux_eq_takeWhile g rs]

/-- C4: the extracted time list is exactly the value list of the longest
initial run of non-empty, float-parseable cells of the time column
(column 1, from row 9); extraction stops at the first gap, so later
parseable cells are excluded. -/
theorem spec_C4 (g : Grid) : time_minutes g = specTimeList g := by
  rw [time_minutes, specTimeList, timeColumnCells, timesAux_eq_takeWhile]

/-- C5: every emitted row carries the rounded unit conversions of some
source pair (t minutes, OD v) — `Time_s = round(t·60, 1)`,
`Time_h = round(t/60, 3)`, `OD = round(v, 4)` — and consequently
`Time_h` agrees with `Time_s / 3600` within 1e-3 and `Time_s` with
`t·60` within 1e-1. -/
theorem spec_C5 (g : Grid) (r : OutputRow) (hr : r ∈ output_data g) :
    ∃ t v : ℚ,
      r.time_s = round_py (t * 60) 1 ∧
      r.time_h = round_py (t / 60) 3 ∧
      r.od = round_py v 4 ∧
      |r.time_h - r.time_s / 3600| ≤ 1 / 1000 ∧
      |r.time_s - t * 60| ≤ 1 / 10 := by
  rw [output_data_eq_flatten, List.mem_flatten] at hr
  obtain ⟨l, hl, hrl⟩ := hr
  rw [List.mem_map] at hl
  obtain ⟨p, hp, rfl⟩ := hl
  rw [wellContribution] at hrl
  split_ifs at hrl with hlen
  · rw [rowsForWell, List.mem_map] at hrl
    obtain ⟨⟨t, v⟩, hmem, rfl⟩ := hrl
    have h3 := abs_round_py_sub_le (t / 60) 3
    have h1 := abs_round_py_sub_le (t * 60) 1
    norm_num at h3 h1
    refine ⟨t, v, rfl, rfl, rfl, ?_, ?_⟩
    · show |round_py (t / 60) 3 - round_py (t * 60) 1 / 3600| ≤ 1 / 1000
      have e : round_py (t / 60) 3 - round_py (t * 60) 1 / 3600 =
          (round_py (t / 60) 3 - t / 60) - (round_py (t * 60) 1 - t * 60) / 3600 := by
        ring
      rw [e]
      have habs : |(round_py (t * 60) 1 - t * 60) / 3600| =
          |round_py (t * 60) 1 - t * 60| / 3600 := by
        rw [abs_div]
        norm_num
      calc |(round_py (t / 60) 3 - t / 60) - (round_py (t * 60) 1 - t * 60) / 3600|
          ≤ |round_py (t / 60) 3 - t / 60| +
            |(round_py (t * 60) 1 - t * 60) / 3600| := abs_sub _ _
        _ ≤ 1 / 2000 + (1 / 20) / 3600 := by
            rw [habs]
            gcongr
        _ ≤ 1 / 1000 := by norm_num
    · show |round_py (t * 60) 1 - t * 60| ≤ 1 / 10
      linarith
  · simp at hrl

theorem spec_C5_witness :
    ∃ t v : ℚ,
      (⟨"A1", 0, 0, 0.1⟩ : OutputRow).time_s = round_py (t * 60) 1 ∧
      (⟨"A1", 0, 0, 0.1⟩ : OutputRow).time_h = round_py (t / 60) 3 ∧
      (⟨"A1", 0, 0, 0.1⟩ : OutputRow).od = round_py v 4 ∧
      |(⟨"A1", 0, 0, 0.1⟩ : OutputRow).time_h -
        (⟨"A1", 0, 0, 0.1⟩ : OutputRow).time_s / 3600| ≤ 1 / 1000 ∧
      |(⟨"A1", 0, 0, 0.1⟩ : OutputRow).time_s - t * 60| ≤ 1 / 10 :=
  spec_C5 exampleGrid ⟨"A1", 0, 0, 0.1⟩
    (by rw [output_data_exampleGrid]; exact List.mem_cons_self _ _)

/-! ### Stability of the sort -/

/-- Inserting an element into a list commutes with filtering by a
predicate whose satisfying elements are pairwise related: the inserted
element lands after no filtered element it should precede. -/
lemma orderedInsert_filter (r : α → α → Prop) [DecidableRel r] (p : α → Bool)
    (hp : ∀ x y, p x = true → p y = true → r x y) (a : α) :
    ∀ l : List α, (l.orderedInsert r a).filter p =
      if p a then a :: l.filter p else l.filter p
  | [] => by
    show List.filter p [a] = if p a = true then a :: List.filter p [] else List.filter p []
    rw [List.filter_cons]
  | b :: l => by
    rw [List.orderedInsert]
    by_cases hr : r a b
    · rw [if_pos hr, List.filter_cons]
    · rw [if_neg hr, List.filter_cons, orderedInsert_filter r p hp a l]
      by_cases hpa : p a = true
      · have hpb : p b = false := by
          cases hpb : p b
          · rfl
          · exact absurd (hp a b hpa hpb) hr
        simp [hpa, hpb, List.filter_cons]
      · have hpa' : p a = false := by
          cases hpab : p a
          · rfl
          · exact absurd hpab hpa
        simp [hpa', List.filter_cons]

/-- Insertion sort is stable: filtering the sorted list by a predicate
whose satisfying elements are pairwise related returns those elements in
their original order. -/
lemma insertionSort_filter (r : α → α → Prop) [DecidableRel r] (p : α → Bool)
    (hp : ∀ x y, p x = true → p y = true → r x y) :
    ∀ l : List α, (List.insertionSort r l).filter p = l.filter p
  | [] => rfl
  | a :: l => by
    rw [List.insertionSort, orderedInsert_filter r p hp a,
      insertionSort_filter r p hp l, List.filter_cons]

/-- C6: the final row list is a permutation of the emitted rows, sorted
by well name (lexicographic) then `Time_s` (ascending); the sort is
stable — for any key, the rows with that key appear in their emission
order. -/
theorem spec_C6 (g : Grid) (rows : List OutputRow)
    (h : convertGrid g = Except.ok rows) :
    List.Perm rows (output_data g) ∧ List.Sorted rowLe rows ∧
    ∀ (w : String) (t : ℚ),
      rows.filter (fun r => decide (r.well = w ∧ r.time_s = t)) =
        (output_data g).filter (fun r => decide (r.well = w ∧ r.time_s = t)) := by
  obtain ⟨-, rfl⟩ := (convertGrid_eq_ok g rows).mp h
  refine ⟨List.perm_insertionSort rowLe _, List.sorted_insertionSort rowLe _, ?_⟩
  intro w t
  apply insertionSort_filter
  intro x y hx hy
  have hx' := of_decide_eq_true hx
  have hy' := of_decide_eq_true hy
  exact Or.inr ⟨hx'.1.trans hy'.1.symm, by rw [hx'.2, hy'.2]⟩

theorem spec_C6_witness :
    List.Perm
      [ (⟨"A1", 0, 0, 0.1⟩ : OutputRow), ⟨"A1", 1800, 0.5, 0.15⟩, ⟨"A1", 3600, 1, 0.2⟩,
        ⟨"A2", 0, 0, 0.11⟩, ⟨"A2", 1800, 0.5, 0.16⟩, ⟨"A2", 3600, 1, 0.21⟩ ]
      (output_data exampleGrid) ∧
    List.Sorted rowLe
      [ (⟨"A1", 0, 0, 0.1⟩ : OutputRow), ⟨"A1", 1800, 0.5, 0.15⟩, ⟨"A1", 3600, 1, 0.2⟩,
        ⟨"A2", 0, 0, 0.11⟩, ⟨"A2", 1800, 0.5, 0.16⟩, ⟨"A2", 3600, 1, 0.21⟩ ] ∧
    ∀ (w : String) (t : ℚ),
      List.filter (fun r => decide (r.well = w ∧ r.time_s = t))
        [ (⟨"A1", 0, 0, 0.1⟩ : OutputRow), ⟨"A1", 1800, 0.5, 0.15⟩, ⟨"A1", 3600, 1, 0.2⟩,
          ⟨"A2", 0, 0, 0.11⟩, ⟨"A2", 1800, 0.5, 0.16⟩, ⟨"A2", 3600, 1, 0.21⟩ ] =
        (output_data exampleGrid).filter fun r => decide (r.well = w ∧ r.time_s = t) :=
  spec_C6 exampleGrid
    [ ⟨"A1", 0, 0, 0.1⟩, ⟨"A1", 1800, 0.5, 0.15⟩, ⟨"A1", 3600, 1, 0.2⟩,
      ⟨"A2", 0, 0, 0.11⟩, ⟨"A2", 1800, 0.5, 0.16⟩, ⟨"A2", 3600, 1, 0.21⟩ ]
    convertGrid_exampleGrid

/-- C8: the whole conversion runs under a top-level `try/except`, so a
failing spreadsheet read returns `False` instead of propagating, and the
routine returns `True` exactly when the read and the conversion both
succeed (after which the output is written). -/
theorem spec_C8 :
    (∀ e : String, convert_bacterial_growth_data (Except.error e) = false) ∧
    ∀ res : Except String Grid,
      convert_bacterial_growth_data res = true ↔
        ∃ g rows, res = Except.ok g ∧ convertGrid g = Except.ok rows := by
  refine ⟨fun e => rfl, ?_⟩
  intro res
  cases res with
  | error e => simp [convert_bacterial_growth_data]
  | ok g =>
    cases hc : convertGrid g with
    | error msg => simp [convert_bacterial_growth_data, hc]
    | ok rows => simp [convert_bacterial_growth_data, hc]

/-- C9: on a readable CSV, validation fails exactly when one of the four
required columns {Well, Time_s, Time_h, OD} is missing or one of the
Time_s / Time_h / OD columns is not numeric-typed, and passes
otherwise. -/
theorem spec_C9 (df : CsvFrame) :
    validate_csv_output (Except.ok df) = false ↔
      (∃ c ∈ required_columns, c ∉ df.columns) ∨
      df.numeric "Time_s" = false ∨ df.numeric "Time_h" = false ∨
      df.numeric "OD" = false := by
  cases hmiss : (required_columns.filter fun c => decide (c ∉ df.columns)).isEmpty with
  | true =>
    have hmissnil : required_columns.filter (fun c => decide (c ∉ df.columns)) = [] := by
      rwa [List.isEmpty_iff] at hmiss
    have hnone : ¬ ∃ c ∈ required_columns, c ∉ df.columns := by
      rintro ⟨c, hc, hn⟩
      have hmem : c ∈ required_columns.filter fun c => decide (c ∉ df.columns) :=
        List.mem_filter.mpr ⟨hc, decide_eq_true hn⟩
      rw [hmissnil] at hmem
      simp at hmem
    simp only [validate_csv_output, hmiss]
    cases hts : df.numeric "Time_s" <;> cases hth : df.numeric "Time_h" <;>
        cases hod : df.numeric "OD" <;>
      simp [hts, hth, hod, hnone]
  | false =>
    have hne : required_columns.filter (fun c => decide (c ∉ df.columns)) ≠ [] := by
      intro h
      rw [h] at hmiss
      simp at hmiss
    obtain ⟨c, hc⟩ := List.exists_mem_of_ne_nil _ hne
    have hcr := (List.mem_filter.mp hc).1
    have hcn : c ∉ df.columns := of_decide_eq_true (List.mem_filter.mp hc).2
    simp only [validate_csv_output, hmiss]
    simp only [Bool.false_eq_true, if_false, eq_self_iff_true, true_iff]
    exact Or.inl ⟨c, hcr, hcn⟩

lemma getD_map_range' (f : ℕ → α) (d : α) :
    ∀ (n s j : ℕ), j < n → ((List.range' s n).map f).getD j d = f (s + j)
  | 0, _, j, h => absurd h (by omega)
  | n + 1, s, 0, _ => by simp [List.range'_succ]
  | n + 1, s, j + 1, h => by
    rw [List.range'_succ, List.map_cons, List.getD_cons_succ,
      getD_map_range' f d n (s + 1) j (by omega)]
    congr 1
    omega

lemma rowsForWell_getElem (name : String) :
    ∀ (ts vs : List ℚ) (j : ℕ), vs.length = ts.length → j < ts.length →
      (rowsForWell name ts vs)[j]? = some (mkRow name (ts.getD j 0) (vs.getD j 0))
  | [], _, j, _, hj => absurd hj (by simp)
  | t :: ts, [], _, hlen, _ => by simp at hlen
  | t :: ts, v :: vs, 0, _, _ => by simp [rowsForWell]
  | t :: ts, v :: vs, j + 1, hlen, hj => by
    have hcons : rowsForWell name (t :: ts) (v :: vs) =
        mkRow name t v :: rowsForWell name ts vs := by
      simp [rowsForWell]
    rw [hcons, List.getElem?_cons_succ,
      rowsForWell_getElem name ts vs j (by simpa using hlen) (by simpa using hj)]
    simp

/-- C10: an accepted well's full OD column is parseable — the skip-on-
parse-failure policy removed nothing — and its j-th emitted row pairs the
j-th extracted timepoint with the value parsed from the grid cell at row
`data_start_row + j` of that well's column, so accepted series can never
be misaligned with the time sequence. -/
theorem spec_C10 (g : Grid) (i : ℕ) (name : String)
    (hcomp : (od_values g (data_col_start + i) (time_minutes g).length).length =
      (time_minutes g).length) :
    (∀ j < (time_minutes g).length,
      data_start_row + j < g.nrows ∧
      ((g.cell (data_start_row + j) (data_col_start + i)).toFloat).isSome = true) ∧
    ∀ j < (time_minutes g).length,
      (wellContribution g (time_minutes g) (i, name))[j]? =
        some (mkRow name ((time_minutes g).getD j 0)
          (((g.cell (data_start_row + j) (data_col_start + i)).toFloat).getD 0)) := by
  have hall := (od_values_complete_iff g (data_col_start + i) (time_minutes g).length).mp hcomp
  refine ⟨hall, ?_⟩
  intro j hj
  have hmap : od_values g (data_col_start + i) (time_minutes g).length =
      (List.range' data_start_row (time_minutes g).length).map
        fun r => ((g.cell r (data_col_start + i)).toFloat).getD 0 := by
    rw [od_values]
    apply odAux_eq_map
    intro r hr
    obtain ⟨j', hj', rfl⟩ := mem_range'_one.mp hr
    exact hall j' (by omega)
  rw [wellContribution]
  dsimp only
  rw [if_pos hcomp, hmap]
  have hlen2 : ((List.range' data_start_row (time_minutes g).length).map
      fun r => ((g.cell r (data_col_start + i)).toFloat).getD 0).length =
      (time_minutes g).length := by
    simp
  rw [rowsForWell_getElem name _ _ j hlen2 hj, getD_map_range' _ _ _ _ j hj]

theorem spec_C10_witness :
    (∀ j < (time_minutes exampleGrid).length,
      data_start_row + j < exampleGrid.nrows ∧
      ((exampleGrid.cell (data_start_row + j) (data_col_start + 0)).toFloat).isSome = true) ∧
    ∀ j < (time_minutes exampleGrid).length,
      (wellContribution exampleGrid (time_minutes exampleGrid) (0, "A1"))[j]? =
        some (mkRow "A1" ((time_minutes exampleGrid).getD j 0)
          (((exampleGrid.cell (data_start_row + j) (data_col_start + 0)).toFloat).getD 0)) :=
  spec_C10 exampleGrid 0 "A1" (by decide)

end BacterialGrowth
